import Mathlib

/-!
Shallow embedding of `goping.go` (ianstewart1/Ping): a command-line ICMP
echo utility.  Pure computations (loss percentage, string handling for the
address argument, ICMP message encoding, flag-to-duration conversion) are
translated directly into Lean functions; the effectful probe cycle is
modelled as an explicit state transformer over the `packetLoss` counters,
parametrised by the external events (send error, the receive-vs-timer race,
the parsed reply) it reacts to.  `log.Fatal` (process abort) and the Go
runtime panic on integer division by zero are modelled by `Option`:
`none` means the process dies at that point.
-/

/-- The `packetLoss` struct of goping.go (lines 167-169):
`totalPackets, lostPackets int`.  Both counters are only ever incremented,
so they are modelled as `Nat`. -/
structure packetLoss where
  totalPackets : Nat
  lostPackets : Nat
deriving DecidableEq, Repr

/-- The loss computation of `printPingReply` (line 153):
`loss := int(math.Ceil(float64(pl.lostPackets/pl.totalPackets) * 100))`.
`pl.lostPackets/pl.totalPackets` is Go integer division, performed before
the conversion to `float64`; when `totalPackets = 0` Go panics with a
runtime "integer divide by zero" error, modelled as `none`.  The quotient
`q` is at most `lostPackets`, far below 2^52, so `float64(q) * 100` and
`math.Ceil` of it are exact and the whole expression equals `q * 100`. -/
def lossCalc (lostPackets totalPackets : Nat) : Option Nat :=
  if totalPackets = 0 then none
  else some (lostPackets / totalPackets * 100)

/-- The loss percentage the spec describes for `StatsTracker.LossPercent`:
`ceil(lostPackets / totalPackets * 100)` with the division performed in
exact (floating-point) arithmetic, and `0` when `totalPackets = 0`.
As an exact ceiling over naturals: the ceiling of `100 * lost / total`. -/
def specLossPercent (lostPackets totalPackets : Nat) : Nat :=
  if totalPackets = 0 then 0
  else (lostPackets * 100 + (totalPackets - 1)) / totalPackets

/-- String printed by `ipv4.ICMPType.String()` (golang.org/x/net/ipv4) for
the type values that can appear; unknown values print "<nil>". -/
def icmpTypeString (t : Nat) : String :=
  if t = 0 then "echo reply"
  else if t = 3 then "destination unreachable"
  else if t = 4 then "source quench"
  else if t = 5 then "redirect"
  else if t = 8 then "echo"
  else if t = 9 then "router advertisement"
  else if t = 10 then "router solicitation"
  else if t = 11 then "time exceeded"
  else if t = 12 then "parameter problem"
  else if t = 13 then "timestamp"
  else if t = 14 then "timestamp reply"
  else "<nil>"

/-- `printTimeout` (lines 148-150): prints the single line
"Request timed out." (its `addr` and `timeout` arguments are unused). -/
def printTimeout : List String :=
  ["Request timed out."]

/-- `printPingReply` (lines 152-165).  `rmType`/`rmCode` are the parsed
reply's ICMP type and code (`ipv4.ICMPTypeEchoReply` is type 0);
`durStr` stands for the `%s` rendering of `dur.Truncate(time.Millisecond)`
and `raddrStr` for `raddr.String()`.  Returns the printed lines, or `none`
when the loss computation divides by zero (Go panic). -/
def printPingReply (rmType rmCode : Nat) (durStr raddrStr : String)
    (pl : packetLoss) : Option (List String) :=
  match lossCalc pl.lostPackets pl.totalPackets with
  | none => none
  | some loss =>
    let advisory : List String :=
      if rmType ≠ 0 then
        ["Expecting echo reply, instead got code " ++ icmpTypeString rmType]
      else []
    let switchLine : String :=
      if rmCode = 0 then
        "Reply from " ++ raddrStr ++ ": time=" ++ durStr ++
          " loss=" ++ toString loss ++ "%"
      else if rmCode = 1 then
        "Could not reach host"
      else
        "Received code " ++ toString rmCode
    some (advisory ++ [switchLine])

/-- Which of the two `select` branches of `sendPing` (lines 127-137) fires:
either the goroutine's `ReadFrom` result arrives on channel `c` first
(carrying the byte count `n`, the peer address, and `ReadFrom`'s error),
or the `time.After` timer fires first. -/
inductive RaceOutcome where
  | recvFirst (n : Nat) (addrStr : String) (recvErr : Option String)
  | timeoutFirst
deriving DecidableEq, Repr

/-- The `readPacket` struct (lines 171-177) as it is consumed after
`sendPing` returns: `lenMsg` is `-1` on the timeout path, otherwise the
byte count from `ReadFrom`; `durStr` stands for the rendering of
`time.Since(sendTime)`; `err` is the error field set by the receive
goroutine (the `msg` bytes themselves are represented by the parsed
type/code handed separately to the printer). -/
structure readPacket where
  lenMsg : Int
  addrStr : String
  durStr : String
  err : Option String
deriving DecidableEq, Repr

/-- `sendPing` (lines 106-146) as a state transformer on the counters.
`writeErr` is the error returned by `ch.WriteTo` (line 109): if non-nil the
process dies (`log.Fatal`, modelled `none`).  Then the `select` races the
receive against the timer: on timer-first, `lostPackets` is incremented and
a packet with `lenMsg = -1` is returned; on receive-first the code
re-checks the same `err` variable set by `WriteTo` (line 139) — not the
error carried in the receive result — and returns the packet with `dur`
and the received length. -/
def sendPing (writeErr : Option String) (race : RaceOutcome)
    (durStr : String) (pl : packetLoss) : Option (readPacket × packetLoss) :=
  if writeErr.isSome then none
  else
    match race with
    | RaceOutcome.timeoutFirst =>
        some ({ lenMsg := -1, addrStr := "", durStr := "", err := none },
              { pl with lostPackets := pl.lostPackets + 1 })
    | RaceOutcome.recvFirst n a e =>
        if writeErr.isSome then none
        else some ({ lenMsg := (n : Int), addrStr := a, durStr := durStr,
                     err := e }, pl)

/-- The classification performed by `ping` at line 78: a returned
`lenMsg == -1` means the probe timed out, anything else is a received
reply that is parsed and printed. -/
def classify (rp : readPacket) : Bool :=
  rp.lenMsg = -1

/-- One probe cycle: `ping` (lines 68-89).  Increments `totalPackets`
first (line 69), runs `sendPing`, prints the timeout line when
`lenMsg == -1`, otherwise parses the reply (`icmp.ParseMessage`, whose
possible failure is the external input `parseFails`, fatal via
`log.Fatal`) with parsed type/code `rmType`/`rmCode`, and prints via
`printPingReply`.  Result: the new counters and the printed lines, or
`none` when the process dies. -/
def ping (pl : packetLoss) (writeErr : Option String) (race : RaceOutcome)
    (parseFails : Bool) (rmType rmCode : Nat) (durStr : String) :
    Option (packetLoss × List String) :=
  let pl1 : packetLoss := { pl with totalPackets := pl.totalPackets + 1 }
  match sendPing writeErr race durStr pl1 with
  | none => none
  | some (rp, pl2) =>
    if classify rp then
      some (pl2, printTimeout)
    else if parseFails then
      none
    else
      match printPingReply rmType rmCode rp.durStr rp.addrStr pl2 with
      | none => none
      | some lines => some (pl2, lines)

/-- The inputs one probe iteration of the driver loop reacts to. -/
structure ProbeInput where
  writeErr : Option String
  race : RaceOutcome
  parseFails : Bool
  rmType : Nat
  rmCode : Nat
  durStr : String
deriving Repr

/-- A whole run: folding `ping` over a list of per-probe inputs starting
from counters `pl`; `none` as soon as a probe kills the process. -/
def pingRun (pl : packetLoss) : List ProbeInput → Option packetLoss
  | [] => some pl
  | i :: is =>
    match ping pl i.writeErr i.race i.parseFails i.rmType i.rmCode i.durStr with
    | none => none
    | some (pl2, _) => pingRun pl2 is

/-- Go `strings.HasPrefix sep s` on character lists: `sep` is a prefix
of `s`. -/
def leadsWith : List Char → List Char → Bool
  | [], _ => true
  | _ :: _, [] => false
  | p :: ps, c :: cs => p = c && leadsWith ps cs

/-- Scan for the leftmost occurrence of `sep` in `s`: returns the part of
`s` strictly before that occurrence and, when the occurrence exists,
`some` of the part strictly after it.  This is the primitive from which
the leftmost-first, non-overlapping semantics of Go's `strings` functions
is built. -/
def breakOn (sep : List Char) : List Char → List Char × Option (List Char)
  | [] => ([], none)
  | c :: cs =>
    if leadsWith sep (c :: cs) then ([], some (List.drop sep.length (c :: cs)))
    else
      let r := breakOn sep cs
      (c :: r.1, r.2)

/-- Go `strings.Contains s sep` (for the non-empty separator "www." used
by `parseIP`): some occurrence of `sep` exists in `s`. -/
def containsGo (sep s : List Char) : Bool :=
  (breakOn sep s).2.isSome

/-- Fuel-driven worker for `splitGo`; the fuel only bounds the recursion
depth and never runs out for `fuel ≥ length s` (each found separator
strictly shortens the remainder, `sep` being non-empty). -/
def splitGoFuel (sep : List Char) : Nat → List Char → List (List Char)
  | 0, s => [s]
  | fuel + 1, s =>
    match breakOn sep s with
    | (pre, none) => [pre]
    | (pre, some rest) => pre :: splitGoFuel sep fuel rest

/-- Go `strings.Split s sep`: all substrings of `s` between consecutive
(leftmost-first, non-overlapping) occurrences of `sep`. -/
def splitGo (sep s : List Char) : List (List Char) :=
  splitGoFuel sep (s.length + 1) s

/-- The separator literal of `parseIP` (line 57): the four characters
w, w, w, dot. -/
def wwwDot : List Char := ['w', 'w', 'w', '.']

/-- The string-handling part of `parseIP` (lines 55-60): the string that
is handed on to `net.ResolveIPAddr`.  If the input contains "www.",
the code takes element 1 of the Go `strings.Split(ip, "www.")`; otherwise
the input is passed unchanged. -/
def parseIPArg (ip : List Char) : List Char :=
  if containsGo wwwDot ip then (splitGo wwwDot ip).getD 1 []
  else ip

/-- Modelled from the claim's words: "the string passed on ... is the
original string with everything up to and including that substring
removed" — drop everything up to and including the first occurrence of
`sep`. -/
def dropThroughFirst (sep s : List Char) : List Char :=
  match (breakOn sep s).2 with
  | some rest => rest
  | none => s

/-- The part of `s` strictly before its first occurrence of `sep`
(all of `s` when there is none). -/
def takeBeforeFirst (sep s : List Char) : List Char :=
  (breakOn sep s).1

/-- The address-argument transformation exactly as the claim words it:
strip everything up to and including the (first) occurrence of "www."
when present, else pass the string unchanged. -/
def specStripWWW (ip : List Char) : List Char :=
  if containsGo wwwDot ip then dropThroughFirst wwwDot ip
  else ip

/-- The per-pair 16-bit accumulation of the `checksum` function of
golang.org/x/net/icmp: bytes are summed as little-paired 16-bit words
(low byte first, `b[i+1]` shifted left 8), a lone trailing byte added
unshifted. -/
def sum16 : List Nat → Nat
  | [] => 0
  | [b] => b
  | b0 :: b1 :: rest => (b1 * 256 + b0) + sum16 rest

/-- The `checksum` function of golang.org/x/net/icmp: a `uint32`
accumulation of the 16-bit word sums, two end-around carry folds, then
the complement of the low 16 bits.  The accumulator wraps at 2^32;
per-step wrapping coincides with one final `% 2^32` for every message
shorter than 2^16 words, which covers all 1500-byte buffers used here. -/
def checksumGo (b : List Nat) : Nat :=
  let s0 := sum16 b % 4294967296
  let s1 := s0 / 65536 + s0 % 65536
  let s2 := s1 + s1 / 65536
  65535 - s2 % 65536

/-- `icmp.Message.Marshal` for IPv4 (golang.org/x/net/icmp) applied to an
Echo body: header `[type, code, 0, 0]`, then the body
(`id`/`seq` big-endian 16-bit, truncated mod 2^16, then the data), then
the checksum written back at offsets 2 (low byte) and 3 (high byte). -/
def icmpMarshal (typ code id seq : Nat) (data : List Nat) : List Nat :=
  let body := [id % 65536 / 256, id % 256, seq % 65536 / 256, seq % 256] ++ data
  let b := [typ, code, 0, 0] ++ body
  let s := checksumGo b
  [typ, code, s % 256, s / 256 % 256] ++ body

/-- `createICMPMessage` (lines 91-104): an Echo Request
(`ipv4.ICMPTypeEcho` = 8), code 0, identifier `os.Getpid() & 0xffff`,
sequence number 1, empty payload, marshalled with its checksum. -/
def createICMPMessage (pid : Nat) : List Nat :=
  icmpMarshal 8 0 (pid % 65536) 1 []

/-- One observable action of the driver loop body (lines 41-50):
the one-second `time.Sleep` and the `ping` call. -/
inductive Event where
  | sleepOneSecond
  | probe
deriving DecidableEq, Repr

/-- The finite driver loop `for i := 0; i < iters; i++` (lines 47-50),
unrolled into its event trace: each iteration sleeps one second and then
runs one probe. -/
def loopTrace : Nat → List Event
  | 0 => []
  | n + 1 => Event.sleepOneSecond :: Event.probe :: loopTrace n

/-- Driver loop state: the infinite `for` of the negative-`n` branch
(lines 41-44), or the finite loop with its remaining iteration count. -/
inductive DriverMode where
  | infinite
  | finite (remaining : Nat)
deriving DecidableEq, Repr

/-- One driver-loop test-and-iterate step: `none` means the loop
condition failed and the loop (and `main`) exits; `some` is the state
after one more sleep-and-probe iteration.  The infinite branch has no
condition and never exits. -/
def driverStep : DriverMode → Option DriverMode
  | DriverMode.infinite => some DriverMode.infinite
  | DriverMode.finite 0 => none
  | DriverMode.finite (n + 1) => some (DriverMode.finite n)

/-- `m` driver steps from a state; `none` once the loop has exited. -/
def stepN : Nat → DriverMode → Option DriverMode
  | 0, s => some s
  | m + 1, s =>
    match driverStep s with
    | none => none
    | some s2 => stepN m s2

/-- The branch taken on the `-n` flag value (line 39): negative means the
infinite loop, otherwise the finite loop over `iters` iterations. -/
def initMode (iters : Int) : DriverMode :=
  if iters < 0 then DriverMode.infinite
  else DriverMode.finite iters.toNat

/-- The usage line printed when the positional argument is missing
(line 26). -/
def usageLine : String := "Usage: goping [Arguments] IP/Hostname"

/-- The output of `flag.PrintDefaults()` (line 27) for the two registered
flags with their default values. -/
def flagDefaultLines : List String :=
  ["  -n int", "    \tNumber of echo requests to send. -1 = infinite. (default -1)",
   "  -w int", "    \tTimeout in milliseconds to wait for each reply. (default 5000)"]

/-- Summary of what `main` (lines 19-53) does before/instead of probing. -/
structure MainSummary where
  printed : List String
  exitStatus : Option Nat
  resolverCalled : Bool
  mode : Option DriverMode
deriving DecidableEq, Repr

/-- `main` (lines 19-53) up to the loop: `arg` is `flag.Arg(0)` (the empty
string when the positional argument is missing).  On a missing argument it
prints the usage line and the flag defaults and returns — Go's `main`
returning normally exits the process with status 0 — before
`closeHandler`, `parseIP` or any probe.  Otherwise it resolves the target
and enters the loop selected by `iters`. -/
def mainModel (arg : String) (iters : Int) : MainSummary :=
  if arg = "" then
    { printed := usageLine :: flagDefaultLines
      exitStatus := some 0
      resolverCalled := false
      mode := none }
  else
    { printed := []
      exitStatus := none
      resolverCalled := true
      mode := some (initMode iters) }

/-- Two's-complement wraparound of Go's 64-bit `int` and of
`time.Duration` (an `int64` of nanoseconds). -/
def wrap64 (x : Int) : Int :=
  (x + 9223372036854775808) % 18446744073709551616 - 9223372036854775808

/-- The duration handed to `time.After` in `sendPing` (line 132):
`time.Duration(timeout * 1000000)` — the `-w` flag value (milliseconds)
times 10^6, computed in Go `int` arithmetic (64-bit, wrapping), yielding
nanoseconds. -/
def afterDurationNs (timeout : Int) : Int :=
  wrap64 (timeout * 1000000)

/-- `time.Millisecond` in nanoseconds. -/
def timeMillisecondNs : Int := 1000000

/-- C1: the loss percentage printed in the success line is NOT
`ceil(L/N*100)` computed with floating-point division: line 153 performs
Go integer division `lostPackets/totalPackets` before converting to
`float64`.  Concrete run: probe 1 times out, probe 2 succeeds, so
L = 1, N = 2; the success line prints `loss=0%` while
`ceil(1/2*100) = 50`. -/
theorem c1_integer_division_loss :
    ping ⟨0, 0⟩ none RaceOutcome.timeoutFirst false 0 0 ("1ms") =
      some (⟨1, 1⟩, ["Request timed out."]) ∧
    ping ⟨1, 1⟩ none (RaceOutcome.recvFirst 28 ("8.8.8.8") none) false 0 0
      ("1ms") =
      some (⟨2, 1⟩, ["Reply from 8.8.8.8: time=1ms loss=0%"]) ∧
    specLossPercent 1 2 = 50 ∧ lossCalc 1 2 = some 0 := by
  refine ⟨by decide, by decide, by decide, by decide⟩

/-- C2: a completed probe increments `totalPackets` exactly once whatever
the outcome, increments `lostPackets` exactly when the race times out,
and preserves `lostPackets ≤ totalPackets` — also at the intermediate
point after the `totalPackets` increment and before any `lostPackets`
increment. -/
theorem c2_counters_invariant (pl pl2 : packetLoss) (writeErr : Option String)
    (race : RaceOutcome) (parseFails : Bool) (rmType rmCode : Nat)
    (durStr : String) (lines : List String)
    (h : ping pl writeErr race parseFails rmType rmCode durStr =
      some (pl2, lines)) :
    pl2.totalPackets = pl.totalPackets + 1 ∧
    pl2.lostPackets =
      (if race = RaceOutcome.timeoutFirst then pl.lostPackets + 1
       else pl.lostPackets) ∧
    (pl.lostPackets ≤ pl.totalPackets →
      pl.lostPackets ≤ pl.totalPackets + 1 ∧
      pl2.lostPackets ≤ pl2.totalPackets) := by
  cases writeErr with
  | some e => simp [ping, sendPing] at h
  | none =>
    cases race with
    | timeoutFirst =>
      simp [ping, sendPing, classify] at h
      obtain ⟨h1, h2⟩ := h
      subst h1
      refine ⟨rfl, by simp, ?_⟩
      intro hle
      exact ⟨by omega, by simp; omega⟩
    | recvFirst n a e =>
      cases parseFails with
      | true => simp [ping, sendPing, classify, show ((n : Int) ≠ -1) by omega] at h
      | false =>
        simp [ping, sendPing, classify, show ((n : Int) ≠ -1) by omega,
          printPingReply, lossCalc] at h
        obtain ⟨h1, h2⟩ := h
        subst h1
        refine ⟨rfl, by simp, ?_⟩
        intro hle
        exact ⟨by omega, by simp; omega⟩

/-- C2 witness: a concrete timed-out probe from counters (3, 2). -/
theorem c2_counters_invariant_witness :
    (4 : Nat) = 3 + 1 ∧
    (3 : Nat) = (if RaceOutcome.timeoutFirst = RaceOutcome.timeoutFirst
      then 2 + 1 else 2) ∧
    ((2 : Nat) ≤ 3 → (2 : Nat) ≤ 3 + 1 ∧ (3 : Nat) ≤ 4) :=
  c2_counters_invariant ⟨3, 2⟩ ⟨4, 3⟩ none RaceOutcome.timeoutFirst false 0 0
    ("1ms") ["Request timed out."] (by decide)

/-- C3: the printer emits exactly "Request timed out." on a timeout; on a
reply with code 0 the reply line with address, duration and loss percent;
on code 1 exactly "Could not reach host" independently of the measured
duration; on any other code the received-code line; and when the reply's
type is not Echo-Reply (type 0) an advisory line naming the unexpected
type precedes the code-switch line. -/
theorem c3_report_lines (rmType rmCode : Nat) (durStr durStr2 raddrStr : String)
    (pl : packetLoss) (h : 0 < pl.totalPackets) :
    printTimeout = ["Request timed out."] ∧
    ∃ loss advisory,
      lossCalc pl.lostPackets pl.totalPackets = some loss ∧
      advisory = (if rmType = 0 then ([] : List String)
        else ["Expecting echo reply, instead got code " ++ icmpTypeString rmType]) ∧
      (rmCode = 0 →
        printPingReply rmType rmCode durStr raddrStr pl =
          some (advisory ++ ["Reply from " ++ raddrStr ++ ": time=" ++ durStr ++
            " loss=" ++ toString loss ++ "%"])) ∧
      (rmCode = 1 →
        printPingReply rmType rmCode durStr raddrStr pl =
          some (advisory ++ ["Could not reach host"]) ∧
        printPingReply rmType rmCode durStr raddrStr pl =
          printPingReply rmType rmCode durStr2 raddrStr pl) ∧
      (rmCode ≠ 0 → rmCode ≠ 1 →
        printPingReply rmType rmCode durStr raddrStr pl =
          some (advisory ++ ["Received code " ++ toString rmCode])) := by
  have htot : pl.totalPackets ≠ 0 := by omega
  refine ⟨rfl, pl.lostPackets / pl.totalPackets * 100,
    (if rmType = 0 then ([] : List String)
      else ["Expecting echo reply, instead got code " ++ icmpTypeString rmType]),
    by simp [lossCalc, htot], rfl, ?_, ?_, ?_⟩
  · intro h0
    subst h0
    simp [printPingReply, lossCalc, htot, ite_not]
  · intro h1
    subst h1
    constructor <;> simp [printPingReply, lossCalc, htot, ite_not]
  · intro h0 h1
    simp [printPingReply, lossCalc, htot, h0, h1, ite_not]

/-- C3 witness: a Destination-Unreachable style reply (type 3, code 1)
after one successful probe: the advisory line precedes the exact line
"Could not reach host", for two different measured durations. -/
theorem c3_report_lines_witness :
    printTimeout = ["Request timed out."] ∧
    ∃ loss advisory,
      lossCalc 0 1 = some loss ∧
      advisory = (if (3 : Nat) = 0 then ([] : List String)
        else ["Expecting echo reply, instead got code " ++ icmpTypeString 3]) ∧
      ((1 : Nat) = 0 →
        printPingReply 3 1 ("5ms") ("1.2.3.4") ⟨1, 0⟩ =
          some (advisory ++ ["Reply from " ++ "1.2.3.4" ++ ": time=" ++ "5ms" ++
            " loss=" ++ toString loss ++ "%"])) ∧
      ((1 : Nat) = 1 →
        printPingReply 3 1 ("5ms") ("1.2.3.4") ⟨1, 0⟩ =
          some (advisory ++ ["Could not reach host"]) ∧
        printPingReply 3 1 ("5ms") ("1.2.3.4") ⟨1, 0⟩ =
          printPingReply 3 1 ("7ms") ("1.2.3.4") ⟨1, 0⟩) ∧
      ((1 : Nat) ≠ 0 → (1 : Nat) ≠ 1 →
        printPingReply 3 1 ("5ms") ("1.2.3.4") ⟨1, 0⟩ =
          some (advisory ++ ["Received code " ++ toString (1 : Nat)])) :=
  c3_report_lines 3 1 ("5ms") ("7ms") ("1.2.3.4") ⟨1, 0⟩ (by decide)

/-- When `breakOn` finds an occurrence of a non-empty separator, the part
after the occurrence is strictly shorter than the whole string. -/
theorem breakOn_some_lt (sep : List Char) (hsep : sep ≠ []) :
    ∀ s p r : List Char, breakOn sep s = (p, some r) → r.length < s.length := by
  intro s
  induction s with
  | nil => intro p r h; simp [breakOn] at h
  | cons c cs ih =>
    intro p r h
    have hsl : 0 < sep.length := List.length_pos.mpr hsep
    by_cases hl : leadsWith sep (c :: cs) = true
    · simp [breakOn, hl] at h
      obtain ⟨-, h2⟩ := h
      subst h2
      simp [List.length_drop]
      omega
    · simp [breakOn, hl] at h
      obtain ⟨-, h2⟩ := h
      rcases hcs : breakOn sep cs with ⟨p2, o⟩
      rw [hcs] at h2
      cases o with
      | none => simp at h2
      | some r2 =>
        simp at h2
        subst h2
        have := ih p2 r2 hcs
        simp only [List.length_cons]
        omega

/-- With positive fuel, the first element produced by `splitGoFuel` is the
part of the string before its first separator occurrence. -/
theorem splitGoFuel_head (sep : List Char) (f : Nat) (hf : 0 < f)
    (r : List Char) : (splitGoFuel sep f r).getD 0 [] = (breakOn sep r).1 := by
  cases f with
  | zero => omega
  | succ f2 =>
    rcases hb : breakOn sep r with ⟨p, o⟩
    cases o with
    | none => simp [splitGoFuel, hb]
    | some rest => simp [splitGoFuel, hb]

/-- C4 counterexample: on an input containing "www." twice, `parseIP` does
NOT pass on everything after the first occurrence: element 1 of the split
is the segment between the first and second occurrences — here the empty
string, where the claim predicts "www.example.com". -/
theorem c4_counterexample :
    containsGo wwwDot ("www.www.example.com".toList) = true ∧
    parseIPArg ("www.www.example.com".toList) ≠
      specStripWWW ("www.www.example.com".toList) ∧
    parseIPArg ("www.www.example.com".toList) = [] ∧
    specStripWWW ("www.www.example.com".toList) = ("www.example.com".toList) := by
  refine ⟨by decide, by decide, by decide, by decide⟩

/-- C4 amended: when the input contains "www." the resolver receives the
segment of the input lying strictly between the first occurrence of
"www." and the following occurrence (everything after the first
occurrence when it is the only one); inputs without "www." pass
unchanged. -/
theorem c4_split_between_occurrences (s : List Char) :
    (containsGo wwwDot s = false → parseIPArg s = s) ∧
    (containsGo wwwDot s = true →
      parseIPArg s = takeBeforeFirst wwwDot (dropThroughFirst wwwDot s)) := by
  constructor
  · intro h
    simp [parseIPArg, h]
  · intro h
    rcases hb : breakOn wwwDot s with ⟨p, o⟩
    cases o with
    | none => simp [containsGo, hb] at h
    | some r =>
      have hlen : r.length < s.length :=
        breakOn_some_lt wwwDot (by decide) s p r hb
      simp [parseIPArg, h, splitGo, splitGoFuel, hb, dropThroughFirst,
        takeBeforeFirst]
      simpa using splitGoFuel_head wwwDot s.length (by omega) r

/-- C4 witness for the amended statement: a single-occurrence input. -/
theorem c4_split_between_occurrences_witness :
    parseIPArg ("www.example.com".toList) =
      takeBeforeFirst wwwDot (dropThroughFirst wwwDot ("www.example.com".toList)) :=
  (c4_split_between_occurrences ("www.example.com".toList)).2 (by decide)

/-- C5 counterexample to the claim as stated: with `totalPackets = 0` the
loss computation does not return 0 — there is no guard; Go integer
division by zero panics (modelled `none`), and the printer dies with it. -/
theorem c5_counterexample :
    lossCalc 0 0 = none ∧
    lossCalc 0 0 ≠ some 0 ∧
    printPingReply 0 0 ("1ms") ("8.8.8.8") ⟨0, 0⟩ = none := by
  refine ⟨by decide, by decide, by decide⟩

/-- A probe whose send and parse succeed always completes: in particular
the printer, invoked with `totalPackets` already incremented, never hits
the zero-denominator division. -/
theorem ping_completes (pl : packetLoss) (race : RaceOutcome)
    (rmType rmCode : Nat) (durStr : String) :
    (ping pl none race false rmType rmCode durStr).isSome = true := by
  cases race with
  | timeoutFirst => simp [ping, sendPing, classify]
  | recvFirst n a e =>
    simp [ping, sendPing, classify, show ((n : Int) ≠ -1) by omega,
      printPingReply, lossCalc]

/-- C5 amended: the zero-denominator branch is unreachable rather than
guarded: `ping` increments `totalPackets` before any printing, so the
printer always runs with a positive denominator and the probe cycle never
dies of the division (whatever the prior counter state, race outcome, or
reply): when send and parse succeed, `ping` returns a result, and the
counters handed to the loss computation have a positive denominator. -/
theorem c5_division_unreachable (pl : packetLoss) (race : RaceOutcome)
    (rmType rmCode : Nat) (durStr : String) :
    (ping pl none race false rmType rmCode durStr).isSome = true ∧
    lossCalc pl.lostPackets (pl.totalPackets + 1) ≠ none := by
  exact ⟨ping_completes pl race rmType rmCode durStr, by simp [lossCalc]⟩

/-- Writing the complemented folded sum of an Echo-Request header back
into its checksum field makes the checksum of the whole message verify:
folding and complementing the full 8-byte message yields 0. -/
theorem checksumGo_writeback (hi lo : Nat) (hhi : hi ≤ 255) (hlo : lo ≤ 255) :
    checksumGo [8, 0, checksumGo [8, 0, 0, 0, hi, lo, 0, 1] % 256,
      checksumGo [8, 0, 0, 0, hi, lo, 0, 1] / 256 % 256, hi, lo, 0, 1] = 0 := by
  have hT : sum16 [8, 0, 0, 0, hi, lo, 0, 1] = 264 + lo * 256 + hi := by
    simp [sum16]
    omega
  obtain ⟨s, hs, hschar, hsle⟩ :
      ∃ s, checksumGo [8, 0, 0, 0, hi, lo, 0, 1] = s ∧
        s = 65535 - ((264 + lo * 256 + hi) % 65536 + (264 + lo * 256 + hi) / 65536) ∧
        s ≤ 65535 := by
    refine ⟨_, rfl, ?_, ?_⟩
    · simp only [checksumGo, hT]
      have hmod : (264 + lo * 256 + hi) % 4294967296 = 264 + lo * 256 + hi :=
        Nat.mod_eq_of_lt (by omega)
      rw [hmod]
      generalize hTg : 264 + lo * 256 + hi = T
      have hTle : T ≤ 65799 := by omega
      rcases Nat.lt_or_ge T 65536 with hc | hc
      · have h1 : T / 65536 = 0 := Nat.div_eq_of_lt hc
        have h2 : T % 65536 = T := Nat.mod_eq_of_lt hc
        simp only [h1, h2, Nat.zero_add, Nat.add_zero]
      · have h1 : T / 65536 = 1 := by omega
        have h2 : T % 65536 = T - 65536 := by omega
        simp only [h1, h2]
        have h3 : 1 + (T - 65536) = T - 65535 := by omega
        rw [h3]
        have h4 : (T - 65535) / 65536 = 0 := by omega
        have h5 : (T - 65535) % 65536 = T - 65535 := by omega
        rw [h4, Nat.add_zero, h5]
        omega
    · simp only [checksumGo]
      omega
  rw [hs]
  have hfull : sum16 [8, 0, s % 256, s / 256 % 256, hi, lo, 0, 1] =
      s + (264 + lo * 256 + hi) := by
    simp [sum16]
    omega
  simp only [checksumGo, hfull]
  have hmod2 : (s + (264 + lo * 256 + hi)) % 4294967296 =
      s + (264 + lo * 256 + hi) := Nat.mod_eq_of_lt (by omega)
  rw [hmod2]
  generalize hTg : 264 + lo * 256 + hi = T at hschar ⊢
  have hTle : T ≤ 65799 := by omega
  rcases Nat.lt_or_ge T 65536 with hc | hc
  · have hsT : s + T = 65535 := by omega
    rw [hsT]
  · have hsT : s + T = 131070 := by omega
    rw [hsT]

/-- C6: for every process identifier, the outbound probe message is an
Echo Request: byte 0 (type) = 8, byte 1 (code) = 0, bytes 4-5 the
16-bit process identifier big-endian, bytes 6-7 the sequence number,
always 1 (the encoder takes no probe index, so the sequence is constant
across the run), no payload bytes after the 8-byte header, and the ICMP
checksum over the whole message verifies (the folded sum of the full
message complements to 0). -/
theorem c6_echo_request_encoding (pid : Nat) :
    ∃ c0 c1 : Nat,
      createICMPMessage pid =
        [8, 0, c0, c1, pid % 65536 / 256, pid % 65536 % 256, 0, 1] ∧
      checksumGo (createICMPMessage pid) = 0 := by
  have hmsg : createICMPMessage pid =
      [8, 0, checksumGo [8, 0, 0, 0, pid % 65536 / 256, pid % 65536 % 256, 0, 1] % 256,
        checksumGo [8, 0, 0, 0, pid % 65536 / 256, pid % 65536 % 256, 0, 1] / 256 % 256,
        pid % 65536 / 256, pid % 65536 % 256, 0, 1] := by
    simp [createICMPMessage, icmpMarshal, Nat.mod_mod_of_dvd]
  refine ⟨_, _, hmsg, ?_⟩
  rw [hmsg]
  exact checksumGo_writeback (pid % 65536 / 256) (pid % 65536 % 256)
    (by omega) (by omega)

/-- The finite loop's trace is `k` copies of sleep-then-probe. -/
theorem loopTrace_replicate (k : Nat) :
    loopTrace k =
      (List.replicate k [Event.sleepOneSecond, Event.probe]).flatten := by
  induction k with
  | zero => rfl
  | succ n ih => simp [loopTrace, List.replicate, ih]

/-- The finite loop's trace holds exactly `k` probe events. -/
theorem loopTrace_count (k : Nat) :
    (loopTrace k).count Event.probe = k := by
  induction k with
  | zero => rfl
  | succ n ih => simp [loopTrace, List.count_cons, ih]

/-- The finite loop exits after exactly `k` iterations (`k+1` condition
tests). -/
theorem stepN_finite_exits (k : Nat) :
    stepN (k + 1) (DriverMode.finite k) = none := by
  induction k with
  | zero => rfl
  | succ n ih => simpa [stepN, driverStep] using ih

/-- The infinite loop never reaches an exit, however many steps run. -/
theorem stepN_infinite (m : Nat) :
    stepN m DriverMode.infinite = some DriverMode.infinite := by
  induction m with
  | zero => rfl
  | succ n ih => simpa [stepN, driverStep] using ih

/-- C7: for every non-negative `-n` value `k` the driver enters the finite
loop, whose trace is exactly `k` probes each preceded by a one-second
sleep, and the loop then exits on its own; for every negative value the
driver enters the infinite loop, which never terminates by itself. -/
theorem c7_driver_iterations (iters : Int) :
    (0 ≤ iters →
      initMode iters = DriverMode.finite iters.toNat ∧
      loopTrace iters.toNat =
        (List.replicate iters.toNat [Event.sleepOneSecond, Event.probe]).flatten ∧
      (loopTrace iters.toNat).count Event.probe = iters.toNat ∧
      stepN (iters.toNat + 1) (initMode iters) = none) ∧
    (iters < 0 →
      initMode iters = DriverMode.infinite ∧
      ∀ m : Nat, stepN m (initMode iters) = some DriverMode.infinite) := by
  constructor
  · intro h
    have hm : initMode iters = DriverMode.finite iters.toNat := by
      simp [initMode, show ¬iters < 0 by omega]
    exact ⟨hm, loopTrace_replicate iters.toNat, loopTrace_count iters.toNat,
      by rw [hm]; exact stepN_finite_exits iters.toNat⟩
  · intro h
    have hm : initMode iters = DriverMode.infinite := by simp [initMode, h]
    exact ⟨hm, fun m => by rw [hm]; exact stepN_infinite m⟩

/-- C7 witness: with the flag at 3 the driver runs exactly three
sleep-probe pairs and exits; with the default -1 it is still running
after five steps. -/
theorem c7_driver_iterations_witness :
    (initMode 3 = DriverMode.finite (3 : Int).toNat ∧
      loopTrace (3 : Int).toNat =
        (List.replicate (3 : Int).toNat [Event.sleepOneSecond, Event.probe]).flatten ∧
      (loopTrace (3 : Int).toNat).count Event.probe = (3 : Int).toNat ∧
      stepN ((3 : Int).toNat + 1) (initMode 3) = none) ∧
    initMode (-1) = DriverMode.infinite ∧
    stepN 5 (initMode (-1)) = some DriverMode.infinite :=
  ⟨(c7_driver_iterations 3).1 (by decide),
    ((c7_driver_iterations (-1)).2 (by decide)).1,
    ((c7_driver_iterations (-1)).2 (by decide)).2 5⟩

/-- C8 counterexample: the claim does not hold for every user-supplied
timeout: the product with 10^6 is computed in wrapping 64-bit `int`
arithmetic, so the flag value 2^62 = 4611686018427387904 ms yields a
zero-length timer instead of 2^62 milliseconds. -/
theorem c8_counterexample :
    afterDurationNs 4611686018427387904 = 0 ∧
    afterDurationNs 4611686018427387904 ≠
      4611686018427387904 * timeMillisecondNs := by
  refine ⟨by decide, by decide⟩

/-- C8 amended: for every timeout flag value `t` whose product with 10^6
fits 64-bit `int` (all values up to about 9.2 trillion ms, in particular
the default 5000), the timer duration equals exactly `t` milliseconds:
`t * 10^6` nanoseconds, with no scaling error. -/
theorem c8_timeout_exact (t : Int)
    (h1 : -9223372036854775808 ≤ t * 1000000)
    (h2 : t * 1000000 < 9223372036854775808) :
    afterDurationNs t = t * timeMillisecondNs := by
  simp only [afterDurationNs, wrap64, timeMillisecondNs]
  omega

/-- C8 witness: the default 5000 ms timeout converts exactly. -/
theorem c8_timeout_exact_witness :
    afterDurationNs 5000 = 5000 * timeMillisecondNs :=
  c8_timeout_exact 5000 (by decide) (by decide)

/-- C9: whatever the flag values, a missing positional target makes `main`
print the usage line and the flag defaults and exit with status 0,
without calling the resolver and without entering any probe loop. -/
theorem c9_missing_arg_usage (iters : Int) :
    (mainModel ("") iters).printed = usageLine :: flagDefaultLines ∧
    (mainModel ("") iters).exitStatus = some 0 ∧
    (mainModel ("") iters).resolverCalled = false ∧
    (mainModel ("") iters).mode = none :=
  ⟨rfl, rfl, rfl, rfl⟩

/-- C10: when the receive wins the race (send error nil), `sendPing`
returns the packet — the post-race error check re-reads the send error,
already known nil, so it cannot abort — the outcome is classified as a
reply (not a timeout), the probe's behaviour is identical for any two
values of the receive error field, and with a parseable reply the probe
completes and prints. -/
theorem c10_recv_error_ignored (pl : packetLoss) (n : Nat) (a : String)
    (e e2 : Option String) (parseFails : Bool) (rmType rmCode : Nat)
    (durStr : String) :
    sendPing none (RaceOutcome.recvFirst n a e) durStr pl =
      some (⟨(n : Int), a, durStr, e⟩, pl) ∧
    classify ⟨(n : Int), a, durStr, e⟩ = false ∧
    ping pl none (RaceOutcome.recvFirst n a e) parseFails rmType rmCode durStr =
      ping pl none (RaceOutcome.recvFirst n a e2) parseFails rmType rmCode durStr ∧
    (parseFails = false →
      (ping pl none (RaceOutcome.recvFirst n a e) parseFails rmType rmCode
        durStr).isSome = true) := by
  refine ⟨rfl, ?_, rfl, ?_⟩
  · simp [classify]
  · intro hp
    subst hp
    exact ping_completes pl (RaceOutcome.recvFirst n a e) rmType rmCode durStr

/-- C10 witness: a receive carrying a non-nil error value is still
processed as a success and printed. -/
theorem c10_recv_error_ignored_witness :
    sendPing none (RaceOutcome.recvFirst 28 ("8.8.8.8") (some ("read error")))
        ("1ms") ⟨1, 0⟩ =
      some (⟨((28 : Nat) : Int), "8.8.8.8", "1ms", some ("read error")⟩, ⟨1, 0⟩) ∧
    classify ⟨((28 : Nat) : Int), "8.8.8.8", "1ms", some ("read error")⟩ = false ∧
    ping ⟨1, 0⟩ none (RaceOutcome.recvFirst 28 ("8.8.8.8")
        (some ("read error"))) false 0 0 ("1ms") =
      ping ⟨1, 0⟩ none (RaceOutcome.recvFirst 28 ("8.8.8.8") none) false 0 0
        ("1ms") ∧
    (false = false →
      (ping ⟨1, 0⟩ none (RaceOutcome.recvFirst 28 ("8.8.8.8")
        (some ("read error"))) false 0 0 ("1ms")).isSome = true) :=
  c10_recv_error_ignored ⟨1, 0⟩ 28 ("8.8.8.8") (some ("read error")) none
    false 0 0 ("1ms")
